import Mathlib

/-!
# SteamPunk bot: pagination and navigation identifiers

A shallow embedding of `bot.go` (package `main`) and theorems about its paginated list
views.

Modelling conventions.

* A Go `string` is a list of characters (`Str`).  The only byte-level operation of the
  program, `url.QueryEscape`, goes through the UTF-8 encoding of each character.
* Go `int` values are mathematical integers; where a value can leave the 64-bit range
  (`page++`, `page--`, `strconv.Atoi`) the wrap-around or clamping of the run time is written
  out.  `len(players)` is a natural number; a slice length never exceeds `2^63 - 1`.
* Every handler returns the list of externally visible effects it performs, in order: the HTTP
  requests, the chat messages, the interaction responses, the log lines and a final `panic`
  when the Go run time would abort the handler.
* The HTTP backend is a function from the URL given to `http.Get` to one of three outcomes:
  the call returns an error without sending a request (for instance the URL does not parse),
  the request is sent and fails, or it is answered.  The effect `httpGet` is recorded only when a request
  is sent.  A response carries what `json.Decoder.Decode` leaves in each of the two target
  shapes together with the error `Decode` returns.
* `sort.Slice` runs an insertion sort on slices of at most 12 elements; on longer slices the
  package promises a sorted permutation and no stability, so there the result is that of an
  arbitrary function with this contract (`SliceSort`).  Ranging over the `games` map yields its entries
  in an order chosen by the run time; the model receives them in that order.
-/

namespace SteamPunk

/-! ## Strings and the library functions used by `bot.go` -/

/-- A Go string. -/
abbrev Str := List Char

/-- Decimal digit for a value below ten. -/
def digitChar (d : Nat) : Char :=
  if d = 0 then '0' else if d = 1 then '1' else if d = 2 then '2' else if d = 3 then '3'
  else if d = 4 then '4' else if d = 5 then '5' else if d = 6 then '6' else if d = 7 then '7'
  else if d = 8 then '8' else '9'

/-- Decimal digits of a natural number, most significant first; `fuel` bounds the number
of digits produced. -/
def fmtNatAux : Nat → Nat → Str → Str
  | 0, _, acc => acc
  | fuel + 1, n, acc =>
    if n < 10 then digitChar n :: acc
    else fmtNatAux fuel (n / 10) (digitChar (n % 10) :: acc)

/-- Decimal rendering of a natural number. -/
def formatNat (n : Nat) : Str := fmtNatAux (n + 1) n []

/-- The verb `%d` of `fmt.Sprintf` applied to an `int`. -/
def formatInt (i : Int) : Str :=
  if i < 0 then '-' :: formatNat i.natAbs else formatNat i.natAbs

/-- The two error kinds of package `strconv`: `ErrSyntax` and `ErrRange`. -/
inductive NumErr
  | invalid
  | range
  deriving DecidableEq, Repr

/-- Largest `uint64`. -/
def maxUint64 : Nat := 2 ^ 64 - 1

/-- The digit loop of `strconv.ParseUint(s, 10, 64)`: a character that is not a decimal digit
is a syntax error, and the loop stops with a range error as soon as the accumulator would
leave the 64-bit range. -/
def parseUintLoop : Nat → Str → Except NumErr Nat
  | n, [] => .ok n
  | n, c :: cs =>
    if c.toNat < 48 ∨ 57 < c.toNat then .error .invalid
    else if n ≥ maxUint64 / 10 + 1 then .error .range
    else if n * 10 + (c.toNat - 48) > maxUint64 then .error .range
    else parseUintLoop (n * 10 + (c.toNat - 48)) cs

/-- The function `strconv.ParseUint(s, 10, 64)`: value and error. -/
def ParseUint (s : Str) : Nat × Option NumErr :=
  if s = [] then (0, some .invalid)
  else
    match parseUintLoop 0 s with
    | .ok n => (n, none)
    | .error .invalid => (0, some .invalid)
    | .error .range => (maxUint64, some .range)

/-- The function `strconv.ParseInt(s, 10, 0)` on a 64-bit platform: optional sign, then
`ParseUint`; a magnitude out of range is clamped and reported as a range error. -/
def ParseInt (s : Str) : Int × Option NumErr :=
  match s with
  | [] => (0, some .invalid)
  | c :: r =>
    let neg := decide (c = '-')
    let s1 := if c = '+' ∨ c = '-' then r else s
    let un := ParseUint s1
    if un.2 = some .invalid then (0, some .invalid)
    else if neg = false ∧ un.1 ≥ 2 ^ 63 then (2 ^ 63 - 1, some .range)
    else if neg = true ∧ un.1 > 2 ^ 63 then (-(2 ^ 63), some .range)
    else (if neg then -(un.1 : Int) else (un.1 : Int), none)

/-- The function `strconv.Atoi`.  Its fast path for short inputs computes the same value and
error as `ParseInt(s, 10, 0)`, which it calls for the other inputs. -/
def Atoi (s : Str) : Int × Option NumErr := ParseInt s

/-- The call `strings.Split(s, "|")`. -/
def stringsSplit (s : Str) : List Str := List.splitOn '|' s

/-- The call `strings.ReplaceAll(s, "|", "")`. -/
def stripBar (s : Str) : Str := s.filter (fun c => c ≠ '|')

/-- The call `strings.Join(args, " ")`. -/
def stringsJoin (args : List Str) : Str := List.intercalate [' '] args

/-- Wrap-around of a 64-bit signed integer. -/
def wrapInt64 (x : Int) : Int := (x + 2 ^ 63) % 2 ^ 64 - 2 ^ 63

/-- The function `url.QueryEscape` keeps exactly these characters: ASCII letters, digits and
the marks `-`, `_`, `.`, `~`. -/
def unreserved (c : Char) : Bool :=
  ('a' ≤ c ∧ c ≤ 'z') ∨ ('A' ≤ c ∧ c ≤ 'Z') ∨ ('0' ≤ c ∧ c ≤ '9')
    ∨ c = '-' ∨ c = '_' ∨ c = '.' ∨ c = '~'

/-- Upper-case hexadecimal digit for a value below sixteen. -/
def hexChar (d : Nat) : Char :=
  if d < 10 then digitChar d
  else if d = 10 then 'A' else if d = 11 then 'B' else if d = 12 then 'C'
  else if d = 13 then 'D' else if d = 14 then 'E' else 'F'

/-- The function `url.QueryEscape`: a space becomes `+`, an unreserved character is kept, and
every other byte of the UTF-8 encoding becomes `%XX`. -/
def QueryEscape (s : Str) : Str :=
  s.flatMap fun c =>
    if c = ' ' then ['+']
    else if unreserved c then [c]
    else (String.utf8EncodeChar c).flatMap fun b =>
       ['%', hexChar (b.toNat / 16), hexChar (b.toNat % 16)]

/-! ## Data model -/

/-- The constant `pageSize`. -/
def pageSize : Int := 10

/-- The constant `apiURL`. -/
def apiURL : Str := "http://127.0.0.1:5000".toList

/-- The struct `Player`: one entry of a list view.  `Playtime` is the number the renderer
prints as hours. -/
structure Player where
  Username : Str
  ProfileURL : Str
  Playtime : Int
  HeaderURL : Str
  deriving DecidableEq, Repr

/-- The struct `SearchResult`. -/
structure SearchResult where
  ImgIconURL : Str
  HeaderURL : Str
  Users : List Player
  deriving DecidableEq, Repr

/-- One value of the `games` map (a `map[string]interface{}`), reduced to the three keys the
program reads.  `playtime_forever` is `none` when the key is absent or not a number, else the
`float64` converted to `int`; `store_url` and `header_url` are `none` when absent or not
strings. -/
structure Game where
  playtime_forever : Option Int
  store_url : Option Str
  header_url : Option Str
  deriving DecidableEq, Repr

/-- The anonymous struct the user lookup decodes into; `Games` lists the map in the order
`range` visits it. -/
structure Account where
  ProfileURL : Str
  AvatarURL : Str
  Games : List (Str × Game)
  deriving DecidableEq, Repr

/-- An HTTP response: status code, body text, and for each of the two target shapes what
`Decode` leaves in the target and the error it returns. -/
structure Response where
  StatusCode : Int
  Body : Str
  account : Account
  accountErr : Option Str
  result : SearchResult
  resultErr : Option Str
  deriving DecidableEq, Repr

/-- The three outcomes of `http.Get(url)`: the client returns an error and no request has
been sent (for instance `url.Parse` rejects the URL, as for a path with the malformed escape
`%zz`), the request is sent and fails, or the request is answered. -/
inductive GetResult
  | rejected (err : Str)
  | failed (err : Str)
  | response (resp : Response)
  deriving DecidableEq, Repr

/-- The backend as seen through `http.Get`. -/
abbrev Backend := Str → GetResult

/-- A `discordgo.Button` of the navigation row. -/
structure Button where
  Label : Str
  CustomID : Str
  Disabled : Bool
  deriving DecidableEq, Repr

/-- The embed and the row of two buttons of a rendered page. -/
structure Message where
  Title : Str
  Description : Str
  Thumbnail : Str
  Image : Str
  Footer : Str
  Previous : Button
  Next : Button
  deriving DecidableEq, Repr

/-- Externally visible actions of a handler. -/
inductive Effect
  | httpGet (url : Str)
  | channelMessageSend (content : Str)
  | channelMessageSendComplex (m : Message)
  | interactionRespond (m : Message)
  | println (line : Str)
  | panic
  deriving DecidableEq, Repr

/-- The call `http.Get(url)`: the request it sends, if any, and the response or error it
returns. -/
def Get (get : Backend) (url : Str) : List Effect × Except Str Response :=
  match get url with
  | .rejected err => ([], .error err)
  | .failed err => ([.httpGet url], .error err)
  | .response resp => ([.httpGet url], .ok resp)

/-! ## The page renderer -/

/-- A slice expression `players[lo:hi]`; `none` is the run-time panic for bounds out of
range.  Both call sites have `hi ≤ len(players)`, so the capacity does not matter. -/
def sliceOf {α : Type} (l : List α) (lo hi : Int) : Option (List α) :=
  if 0 ≤ lo ∧ lo ≤ hi ∧ hi ≤ (l.length : Int) then some ((l.take hi.toNat).drop lo.toNat)
  else none

/-- The local `totalPages`. -/
def totalPages (players : List Player) : Int :=
  Int.tdiv ((players.length : Int) + pageSize - 1) pageSize

/-- The local `page` after the clamping `if`, from the total and the requested index. -/
def clampPage (total page : Int) : Int :=
  if page < 0 then 0
  else if page ≥ total then total - 1
  else page

/-- The local `end`, from `len(players)` and `start`. -/
def pageEnd (players : List Player) (start : Int) : Int :=
  if start + pageSize > (players.length : Int) then (players.length : Int)
  else start + pageSize

/-- The local `playtimeMsg` of the rendering loop. -/
def playtimeMsg (p : Player) : Str :=
  if p.Playtime = 1 then "1 hour".toList
  else if p.Playtime > 1 then formatInt p.Playtime ++ " hours".toList
  else "Less than one hour".toList

/-- One line of the description, as written by the rendering loop. -/
def entryLine (p : Player) : Str :=
  "[**".toList ++ p.Username ++ "**](".toList ++ p.ProfileURL ++ ") — ".toList
    ++ playtimeMsg p ++ "\n".toList

/-- The local `imageURL`: the header of `players[start]` when the page shows an entry; `none`
is the index panic. -/
def imageURL (players shown : List Player) (start : Int) : Option Str :=
  if shown.length > 0 then
    if 0 ≤ start then (players.get? start.toNat).map Player.HeaderURL else none
  else some []

/-- The navigation identifier `<pfx>|<action>|<title without bars>|<page>`. -/
def customID (pfx action title : Str) (page : Int) : Str :=
  pfx ++ "|".toList ++ action ++ "|".toList ++ stripBar title ++ "|".toList ++ formatInt page

/-- The common body of `sendPaginatedEmbed` and `editPaginatedEmbed` (the two functions
differ only in the final call): the embed and the button row, or `none` when a slice or
index expression panics. -/
def paginatedEmbed (title thumb : Str) (players : List Player) (pfx : Str) (page : Int) :
    Option Message :=
  let total := totalPages players
  let page := clampPage total page
  let start := page * pageSize
  let stop := pageEnd players start
  match sliceOf players start stop with
  | none => none
  | some shown =>
    match imageURL players shown start with
    | none => none
    | some image =>
      some
        { Title := title ++ " — Page ".toList ++ formatInt (page + 1) ++ "/".toList
            ++ formatInt total
          Description := shown.flatMap entryLine
          Thumbnail := thumb
          Image := image
          Footer := "Total items: ".toList ++ formatInt (players.length : Int)
          Previous :=
            { Label := "◀ Previous".toList
              CustomID := customID pfx "prev".toList title page
              Disabled := decide (page = 0) }
          Next :=
            { Label := "Next ▶".toList
              CustomID := customID pfx "next".toList title page
              Disabled := decide (page ≥ total - 1) } }

/-- The function `sendPaginatedEmbed`. -/
def sendPaginatedEmbed (title thumb : Str) (players : List Player) (pfx : Str) (page : Int) :
    List Effect :=
  match paginatedEmbed title thumb players pfx page with
  | none => [.panic]
  | some m => [.channelMessageSendComplex m]

/-- The function `editPaginatedEmbed`. -/
def editPaginatedEmbed (title thumb : Str) (players : List Player) (pfx : Str) (page : Int) :
    List Effect :=
  match paginatedEmbed title thumb players pfx page with
  | none => [.panic]
  | some m => [.interactionRespond m]

/-! ## The handlers -/

/-- The body of the loop over `account.Games`: the entry for one game, with the playtime in
minutes divided by 60 (Go division truncates); `none` is the panic of a failed type
assertion. -/
def gamePlayer (name : Str) (g : Game) : Option Player :=
  match g.playtime_forever with
  | none => none
  | some minutes =>
    let playtime := Int.tdiv minutes 60
    let headerURL := match g.header_url with
      | some v => v
      | none => []
    match g.store_url with
    | none => none
    | some storeURL =>
      some { Username := name, ProfileURL := storeURL, Playtime := playtime, HeaderURL := headerURL }

/-- The loop over `account.Games`, appending one entry per game. -/
def gamesPlayers : List (Str × Game) → Option (List Player)
  | [] => some []
  | (name, g) :: rest =>
    match gamePlayer name g with
    | none => none
    | some p =>
      match gamesPlayers rest with
      | none => none
      | some ps => some (p :: ps)

/-- What package `sort` promises of `sort.Slice` with the comparison
`players[i].Playtime > players[j].Playtime`: the result is a permutation of the slice in which
no entry precedes one with a larger playtime.  The order of entries with equal playtime is
left open. -/
structure SliceSort where
  run : List Player → List Player
  perm : ∀ l, (run l).Perm l
  sorted : ∀ l, (run l).Sorted (fun a b => b.Playtime ≤ a.Playtime)

/-- The call `sort.Slice(players, func(i, j) { return players[i].Playtime > players[j].Playtime })`:
the insertion sort of the library for at most 12 entries, which moves an entry left past its
neighbours of smaller playtime only, and the function `lib` of the library's contract for
more. -/
def sortSlice (lib : SliceSort) (players : List Player) : List Player :=
  if players.length ≤ 12 then players.insertionSort (fun a b => b.Playtime ≤ a.Playtime)
  else lib.run players

/-- The function `handleGames`. -/
def handleGames (lib : SliceSort) (get : Backend) (args : List Str) : List Effect :=
  match args with
  | [username] =>
    match Get get (apiURL ++ "/user/".toList ++ username) with
    | (sent, .error err) => sent ++ [.channelMessageSend ("Error fetching user: ".toList ++ err)]
    | (sent, .ok apiResp) =>
      sent ++
        if apiResp.StatusCode ≠ 200 then
          [.channelMessageSend ("API error: ".toList ++ apiResp.Body)]
        else
          match apiResp.accountErr with
          | some err => [.channelMessageSend ("Error parsing JSON: ".toList ++ err)]
          | none =>
            match gamesPlayers apiResp.account.Games with
            | none => [.panic]
            | some players =>
              sendPaginatedEmbed username apiResp.account.AvatarURL (sortSlice lib players)
                "games".toList 0
  | _ => [.channelMessageSend "Usage: `!games <username>`".toList]

/-- The function `handleSearch`. -/
def handleSearch (get : Backend) (args : List Str) : List Effect :=
  if args.length = 0 then [.channelMessageSend "Usage: `!search <game name>`".toList]
  else
    let gameName := stringsJoin args
    let encodedGame := QueryEscape gameName
    let fullURL := apiURL ++ "/search?game=".toList ++ encodedGame
    match Get get fullURL with
    | (sent, .error err) => sent ++ [.channelMessageSend ("Error calling API: ".toList ++ err)]
    | (sent, .ok resp) =>
      sent ++
        if resp.StatusCode ≠ 200 then
          [.channelMessageSend ("API error (status ".toList ++ formatInt resp.StatusCode
            ++ "): ".toList ++ resp.Body)]
        else
          match resp.resultErr with
          | some err => [.channelMessageSend ("Error parsing JSON: ".toList ++ err)]
          | none =>
            if resp.result.Users.length = 0 then
              [.channelMessageSend ("No users found for **".toList ++ gameName ++ "**".toList)]
            else
              sendPaginatedEmbed gameName resp.result.ImgIconURL resp.result.Users
                "search".toList 0

/-- The kind of an interaction: a press on a message component, or anything else. -/
inductive InteractionType
  | messageComponent
  | other
  deriving DecidableEq, Repr

/-- The part of `discordgo.InteractionCreate` the handler reads: its `Type` (here `Kind`) and
the `CustomID` of the pressed component. -/
structure Interaction where
  Kind : InteractionType
  CustomID : Str
  deriving DecidableEq, Repr

/-- The end of `interactionCreate`, after the `switch`: sort, apply the direction to the page
counter (a 64-bit `int`), render. -/
def interactionRender (lib : SliceSort) (title thumb : Str) (players : List Player)
    (pfx action : Str) (page : Int) : List Effect :=
  let players := sortSlice lib players
  let page :=
    if action = "next".toList then wrapInt64 (page + 1)
    else if action = "prev".toList then wrapInt64 (page - 1)
    else page
  editPaginatedEmbed title thumb players pfx page

/-- The start of `interactionCreate` on a component press: split the identifier on the bar,
require four fields, read the first four, the fourth through `strconv.Atoi` with its error
discarded.  `none` is the malformed case. -/
def decodeCustomID (id : Str) : Option (Str × Str × Str × Int) :=
  match stringsSplit id with
  | pfx :: action :: title :: pageStr :: _ => some (pfx, action, title, (Atoi pageStr).1)
  | _ => none

/-- The `switch` of `interactionCreate`: the effects it performs and, unless the handler
stops there (logged return or panic), the fetched `players` and `thumb`.  Errors of `Decode`
are ignored; a kind other than `games` and `search` fetches nothing. -/
def interactionFetch (get : Backend) (pfx title : Str) :
    List Effect × Option (List Player × Str) :=
  if pfx = "games".toList then
    match Get get (apiURL ++ "/user/".toList ++ title) with
    | (sent, .error _) => (sent ++ [.println "Error fetching user for pagination".toList], none)
    | (sent, .ok apiResp) =>
      if apiResp.StatusCode ≠ 200 then
        (sent ++ [.println "Error fetching user for pagination".toList], none)
      else
        match gamesPlayers apiResp.account.Games with
        | none => (sent ++ [.panic], none)
        | some players => (sent, some (players, apiResp.account.AvatarURL))
  else if pfx = "search".toList then
    match Get get (apiURL ++ "/search?game=".toList ++ title) with
    | (sent, .error _) => (sent ++ [.println "Error fetching search for pagination".toList], none)
    | (sent, .ok apiResp) =>
      if apiResp.StatusCode ≠ 200 then
        (sent ++ [.println "Error fetching search for pagination".toList], none)
      else (sent, some (apiResp.result.Users, apiResp.result.ImgIconURL))
  else ([], some ([], []))

/-- The function `interactionCreate`. -/
def interactionCreate (lib : SliceSort) (get : Backend) (i : Interaction) : List Effect :=
  if i.Kind ≠ .messageComponent then []
  else
    match decodeCustomID i.CustomID with
    | none => [.println ("Malformed customID: ".toList ++ i.CustomID)]
    | some (pfx, action, title, page) =>
      match interactionFetch get pfx title with
      | (effects, none) => effects
      | (effects, some (players, thumb)) =>
        effects ++ interactionRender lib title thumb players pfx action page

/-! ## Replaying presses

A press on a button of a rendered message delivers that button's identifier to
`interactionCreate`; the message of the interaction response replaces the pressed one. -/

/-- The message that replaces `m` when its Next (`next = true`) or Previous button is
pressed, if the handler answers with one. -/
def press (lib : SliceSort) (get : Backend) (m : Message) (next : Bool) : Option Message :=
  match (interactionCreate lib get
      ⟨.messageComponent, if next then m.Next.CustomID else m.Previous.CustomID⟩).getLast? with
  | some (.interactionRespond m') => some m'
  | _ => none

/-- A sequence of presses, each on the message left by the one before. -/
def pressAll (lib : SliceSort) (get : Backend) : Message → List Bool → Option Message
  | m, [] => some m
  | m, b :: rest =>
    match press lib get m b with
    | none => none
    | some m' => pressAll lib get m' rest

/-- The page index carried by the identifiers of both buttons of `m`, when they agree. -/
def pageOf (m : Message) : Option Int :=
  match decodeCustomID m.Previous.CustomID, decodeCustomID m.Next.CustomID with
  | some (_, _, _, p), some (_, _, _, q) => if p = q then some p else none
  | _, _ => none

/-! ## Navigation steps, as the specification words them -/

/-- The page index a press leads to: one more, at most the last page, for Next; one less, at
least zero, for Previous. -/
def nextPage (total p : Int) (next : Bool) : Int :=
  if next then min (p + 1) (total - 1) else max (p - 1) 0

/-- The direction field of a button identifier. -/
def actionOf (next : Bool) : Str := if next then "next".toList else "prev".toList

/-! ## Order on entries used by `sortSlice` -/

instance : IsTotal Player (fun a b => b.Playtime ≤ a.Playtime) :=
  ⟨fun a b => le_total b.Playtime a.Playtime⟩

instance : IsTrans Player (fun a b => b.Playtime ≤ a.Playtime) :=
  ⟨fun _ _ _ hab hbc => le_trans hbc hab⟩

/-! ## Sample inputs -/

/-- The insertion sort at every length, an instance of the library's contract. -/
def sampleSort : SliceSort :=
  { run := fun l => l.insertionSort (fun a b => b.Playtime ≤ a.Playtime)
    perm := fun l => List.perm_insertionSort _ l
    sorted := fun l => List.sorted_insertionSort _ l }

/-- A client for which `http.Get` rejects the URL `apiURL + "/user/%zz"`, whose path holds a
malformed escape, without sending a request, and gets every other request answered with
status 200 and empty shapes. -/
def sampleRejecting : Backend :=
  fun url =>
    if url = apiURL ++ "/user/%zz".toList then .rejected "invalid URL escape".toList
    else
      .response { StatusCode := 200, Body := [], account := ⟨[], [], []⟩, accountErr := none,
                  result := ⟨[], [], []⟩, resultErr := none }

/-- An entry named by its index, with the index as playtime. -/
def sampleEntry (i : Nat) : Player :=
  { Username := formatNat i, ProfileURL := [], Playtime := (i : Int), HeaderURL := formatNat i }

/-- Twenty-five entries, numbered 0 to 24. -/
def sample25 : List Player := (List.range 25).map sampleEntry

/-- A backend that answers every request with status 200 and the given decoded shapes. -/
def sampleBackend (account : Account) (result : SearchResult) : Backend :=
  fun _ =>
    .response { StatusCode := 200, Body := [], account := account, accountErr := none,
                result := result, resultErr := none }

/-- A search result listing `ann` with playtime 1 before `bea` with playtime 2. -/
def sampleAscending : SearchResult :=
  { ImgIconURL := "icon".toList, HeaderURL := [],
    Users := [⟨"ann".toList, "pa".toList, 1, []⟩, ⟨"bea".toList, "pb".toList, 2, []⟩] }

/-- A search result with one user whose `playtime` is 59. -/
def sample59 : SearchResult :=
  { ImgIconURL := "icon".toList, HeaderURL := [],
    Users := [⟨"ann".toList, "pa".toList, 59, []⟩] }

/-- An account with one game played 120 minutes. -/
def sampleAccount : Account :=
  { ProfileURL := [], AvatarURL := "avatar".toList,
    Games := [("portal".toList, ⟨some 120, some "store".toList, none⟩)] }

/-- A search result with the twenty-five sample entries. -/
def sampleSearch25 : SearchResult :=
  { ImgIconURL := "icon".toList, HeaderURL := [], Users := sample25 }

/-- The first message among the effects of a handler, or an empty message. -/
def firstMessage : List Effect → Message
  | [] => ⟨[], [], [], [], [], ⟨[], [], false⟩, ⟨[], [], false⟩⟩
  | .channelMessageSendComplex m :: _ => m
  | _ :: rest => firstMessage rest

/-- The message rendered by `!search portal` on `sampleSearch25`. -/
def sampleStart : Message :=
  firstMessage (handleSearch (sampleBackend sampleAccount sampleSearch25) ["portal".toList])

/-- The page index shown after a sequence of presses on `sampleStart`. -/
def samplePages (presses : List Bool) : Option Int :=
  (pressAll sampleSort (sampleBackend sampleAccount sampleSearch25) sampleStart presses).bind
    pageOf

/-! ## Decimal formatting and parsing -/

/-- The models of `fmt`, `strconv` and `strings` on sample values: `Atoi` returns 0 on a
syntax error and the clamped value on a range error; `Split` of the empty string is one empty
field. -/
theorem library_model_samples :
    formatInt 125 = "125".toList ∧ formatInt (-17) = "-17".toList ∧ formatInt 0 = "0".toList
      ∧ Atoi "125".toList = (125, none) ∧ Atoi "-17".toList = (-17, none)
      ∧ Atoi "+".toList = (0, some .invalid) ∧ Atoi "12a".toList = (0, some .invalid)
      ∧ Atoi "".toList = (0, some .invalid)
      ∧ Atoi "99999999999999999999".toList = (2 ^ 63 - 1, some .range)
      ∧ Atoi "-9223372036854775808".toList = (-(2 ^ 63), none)
      ∧ stringsSplit "games|next|bob|2".toList
          = ["games".toList, "next".toList, "bob".toList, "2".toList]
      ∧ stringsSplit [] = [[]]
      ∧ stripBar "a|b".toList = "ab".toList
      ∧ stringsJoin ["half".toList, "life".toList] = "half life".toList
      ∧ QueryEscape "half life|é".toList = "half+life%7C%C3%A9".toList
      ∧ wrapInt64 (2 ^ 63 - 1 + 1) = -(2 ^ 63) := by
  decide

theorem digitChar_toNat (d : Nat) (h : d < 10) : (digitChar d).toNat = 48 + d := by
  interval_cases d <;> rfl

theorem parseUintLoop_append (xs ys : Str) (a : Nat) :
    parseUintLoop a (xs ++ ys) =
      match parseUintLoop a xs with
      | .ok m => parseUintLoop m ys
      | .error e => .error e := by
  induction xs generalizing a with
  | nil => simp [parseUintLoop]
  | cons c cs ih =>
    simp only [List.cons_append, parseUintLoop]
    split_ifs <;> simp [ih]

theorem fmtNatAux_acc (fuel n : Nat) (acc : Str) :
    fmtNatAux fuel n acc = fmtNatAux fuel n [] ++ acc := by
  induction fuel generalizing n acc with
  | zero => simp [fmtNatAux]
  | succ f ih =>
    simp only [fmtNatAux]
    split_ifs
    · simp
    · rw [ih (n / 10) (digitChar (n % 10) :: acc), ih (n / 10) [digitChar (n % 10)]]
      simp

theorem parseUintLoop_digit (a d : Nat) (hd : d < 10) (h : a * 10 + d ≤ maxUint64) :
    parseUintLoop a [digitChar d] = .ok (a * 10 + d) := by
  have hc := digitChar_toNat d hd
  have hm : maxUint64 = 18446744073709551615 := by decide
  simp only [parseUintLoop, hc]
  rw [hm] at h ⊢
  have h1 : ¬ (48 + d < 48 ∨ 57 < 48 + d) := by omega
  have h2 : ¬ (a ≥ 18446744073709551615 / 10 + 1) := by omega
  have h3 : ¬ (a * 10 + (48 + d - 48) > 18446744073709551615) := by omega
  simp only [h1, h2, h3, if_false]
  congr 1
  omega

theorem parseUintLoop_fmtNatAux (n : Nat) :
    n ≤ maxUint64 → ∀ fuel, n < fuel → parseUintLoop 0 (fmtNatAux fuel n []) = .ok n := by
  induction n using Nat.strong_induction_on with
  | _ n ih =>
    intro hn fuel hf
    match fuel, hf with
    | f + 1, hf =>
      simp only [fmtNatAux]
      split_ifs with h10
      · have := parseUintLoop_digit 0 n h10 (by omega)
        simpa using this
      · rw [fmtNatAux_acc, parseUintLoop_append]
        have hlt : n / 10 < n := by omega
        rw [ih (n / 10) hlt (by omega) f (by omega)]
        have := parseUintLoop_digit (n / 10) (n % 10) (by omega) (by omega)
        simp only [this]
        congr 1
        omega

theorem parseUintLoop_formatNat (n : Nat) (h : n ≤ maxUint64) :
    parseUintLoop 0 (formatNat n) = .ok n :=
  parseUintLoop_fmtNatAux n h (n + 1) (by omega)

theorem fmtNatAux_digits (fuel n : Nat) (acc : Str) :
    ∀ c ∈ fmtNatAux fuel n acc, c ∈ acc ∨ (48 ≤ c.toNat ∧ c.toNat ≤ 57) := by
  induction fuel generalizing n acc with
  | zero => intro c hc; left; simpa [fmtNatAux] using hc
  | succ f ih =>
    intro c hc
    simp only [fmtNatAux] at hc
    split_ifs at hc with h10
    · rcases List.mem_cons.mp hc with rfl | h
      · right; rw [digitChar_toNat n h10]; omega
      · left; exact h
    · rcases ih _ _ c hc with h | h
      · rcases List.mem_cons.mp h with rfl | h
        · right; rw [digitChar_toNat (n % 10) (by omega)]; omega
        · left; exact h
      · right; exact h

theorem formatNat_digits (n : Nat) : ∀ c ∈ formatNat n, 48 ≤ c.toNat ∧ c.toNat ≤ 57 := by
  intro c hc
  rcases fmtNatAux_digits _ _ _ c hc with h | h
  · simp at h
  · exact h

theorem formatNat_ne_nil (n : Nat) : formatNat n ≠ [] := by
  unfold formatNat
  simp only [fmtNatAux]
  split_ifs
  · simp
  · rw [fmtNatAux_acc]; simp

theorem bar_not_mem_formatInt (i : Int) : '|' ∉ formatInt i := by
  intro h
  unfold formatInt at h
  split_ifs at h
  · rcases List.mem_cons.mp h with h | h
    · exact absurd h (by decide)
    · have := formatNat_digits _ _ h
      revert this; decide
  · have := formatNat_digits _ _ h
    revert this; decide

theorem ParseUint_formatNat (n : Nat) (h : n ≤ maxUint64) : ParseUint (formatNat n) = (n, none) := by
  unfold ParseUint
  rw [if_neg (formatNat_ne_nil n), parseUintLoop_formatNat n h]

theorem Atoi_formatInt (i : Int) (hlo : -(2 ^ 63) ≤ i) (hhi : i < 2 ^ 63) :
    Atoi (formatInt i) = (i, none) := by
  have hm : maxUint64 = 18446744073709551615 := by decide
  unfold Atoi formatInt
  by_cases hneg : i < 0
  · rw [if_pos hneg]
    have hu := ParseUint_formatNat i.natAbs (by rw [hm]; omega)
    have h2 : -(i.natAbs : Int) = i := by omega
    simp only [ParseInt, decide_True, or_true, if_true, reduceCtorEq, false_and, true_and, hu,
      if_false]
    have h4 : ¬ (i.natAbs > 2 ^ 63) := by omega
    rw [if_neg h4, h2]
  · rw [if_neg hneg]
    have hu := ParseUint_formatNat i.natAbs (by rw [hm]; omega)
    have hd := formatNat_digits i.natAbs
    cases hs : formatNat i.natAbs with
    | nil => exact absurd hs (formatNat_ne_nil _)
    | cons c r =>
      have hc := hd c (by rw [hs]; simp)
      have hplus : c ≠ '+' := by rintro rfl; revert hc; decide
      have hminus : c ≠ '-' := by rintro rfl; revert hc; decide
      rw [hs] at hu
      have h2 : ((i.natAbs : Nat) : Int) = i := by omega
      simp [ParseInt, hplus, hminus, hu, h2]
      omega

/-! ## Navigation identifiers -/

theorem bar_not_mem_stripBar (s : Str) : '|' ∉ stripBar s := by
  simp [stripBar, List.mem_filter]

theorem stripBar_of_not_mem (s : Str) (h : '|' ∉ s) : stripBar s = s := by
  unfold stripBar
  rw [List.filter_eq_self]
  intro c hc
  have : c ≠ '|' := by rintro rfl; exact h hc
  simpa using this

theorem customID_eq_intercalate (pfx action title : Str) (page : Int) :
    customID pfx action title page
      = List.intercalate ['|'] [pfx, action, stripBar title, formatInt page] := by
  simp [customID, List.intercalate, List.intersperse]

theorem stringsSplit_customID (pfx action title : Str) (page : Int)
    (hp : '|' ∉ pfx) (ha : '|' ∉ action) :
    stringsSplit (customID pfx action title page)
      = [pfx, action, stripBar title, formatInt page] := by
  rw [customID_eq_intercalate, stringsSplit]
  apply List.splitOn_intercalate
  · intro l hl
    simp only [List.mem_cons, List.mem_singleton, List.not_mem_nil, or_false] at hl
    rcases hl with rfl | rfl | rfl | rfl
    · exact hp
    · exact ha
    · exact bar_not_mem_stripBar title
    · exact bar_not_mem_formatInt page
  · simp

theorem decodeCustomID_customID (pfx action title : Str) (page : Int)
    (hp : '|' ∉ pfx) (ha : '|' ∉ action) (hlo : -(2 ^ 63) ≤ page) (hhi : page < 2 ^ 63) :
    decodeCustomID (customID pfx action title page) = some (pfx, action, stripBar title, page) := by
  simp [decodeCustomID, stringsSplit_customID pfx action title page hp ha,
    Atoi_formatInt page hlo hhi]

/-! ## Page arithmetic -/

theorem totalPages_eq (players : List Player) :
    totalPages players = ((players.length : Int) + 9) / 10 := by
  unfold totalPages pageSize
  rw [Int.tdiv_eq_ediv (by omega) (by omega)]
  congr 1
  omega

theorem totalPages_pos (players : List Player) (h : players ≠ []) : 1 ≤ totalPages players := by
  have hl : 0 < players.length := List.length_pos.mpr h
  rw [totalPages_eq]
  omega

theorem clampPage_range (total page : Int) (h : 1 ≤ total) :
    0 ≤ clampPage total page ∧ clampPage total page < total := by
  unfold clampPage
  split_ifs <;> omega

theorem clampPage_of_range (total page : Int) (h0 : 0 ≤ page) (h1 : page < total) :
    clampPage total page = page := by
  unfold clampPage
  split_ifs <;> omega

theorem sliceOf_of_range {α : Type} (l : List α) (lo hi : Nat) (h1 : lo ≤ hi) (h2 : hi ≤ l.length) :
    sliceOf l (lo : Int) (hi : Int) = some ((l.take hi).drop lo) := by
  unfold sliceOf
  rw [if_pos (by omega)]
  simp

theorem pageEnd_eq (players : List Player) (k : Nat) :
    pageEnd players ((k : Int) * pageSize) = ((min players.length (k * 10 + 10) : Nat) : Int) := by
  unfold pageEnd pageSize
  split_ifs <;> omega

/-- For a non-empty list the renderer does not panic, and the message it builds is
determined by the clamped page index `q`: it shows the entries at positions `10 q` up to
`min (len, 10 q + 10)`. -/
theorem paginatedEmbed_of_ne_nil (title thumb : Str) (players : List Player) (pfx : Str)
    (page : Int) (h : players ≠ []) :
    ∃ (q : Nat) (m : Message), (q : Int) = clampPage (totalPages players) page
      ∧ q * 10 < players.length
      ∧ paginatedEmbed title thumb players pfx page = some m
      ∧ m.Description
          = ((players.take (min players.length (q * 10 + 10))).drop (q * 10)).flatMap entryLine
      ∧ m.Title = title ++ " — Page ".toList ++ formatInt ((q : Int) + 1) ++ "/".toList
          ++ formatInt (totalPages players)
      ∧ some m.Image = (players.get? (q * 10)).map Player.HeaderURL
      ∧ m.Previous.CustomID = customID pfx "prev".toList title q
      ∧ m.Next.CustomID = customID pfx "next".toList title q
      ∧ m.Previous.Disabled = decide ((q : Int) = 0)
      ∧ m.Next.Disabled = decide ((q : Int) ≥ totalPages players - 1) := by
  have hT := totalPages_pos players h
  have hq := clampPage_range (totalPages players) page hT
  obtain ⟨q, hqe⟩ := Int.eq_ofNat_of_zero_le hq.1
  have hlt : q * 10 < players.length := by
    have := totalPages_eq players
    omega
  have hstart : clampPage (totalPages players) page * pageSize = ((q * 10 : Nat) : Int) := by
    rw [hqe]; unfold pageSize; push_cast; ring
  have hend := pageEnd_eq players q
  have hslice : sliceOf players ((q * 10 : Nat) : Int)
      ((min players.length (q * 10 + 10) : Nat) : Int)
      = some ((players.take (min players.length (q * 10 + 10))).drop (q * 10)) :=
    sliceOf_of_range players _ _ (by omega) (by omega)
  have hshown : ((players.take (min players.length (q * 10 + 10))).drop (q * 10)).length > 0 := by
    simp only [List.length_drop, List.length_take]
    omega
  have himg : imageURL players ((players.take (min players.length (q * 10 + 10))).drop (q * 10))
      ((q * 10 : Nat) : Int) = (players.get? (q * 10)).map Player.HeaderURL := by
    unfold imageURL
    rw [if_pos hshown, if_pos (by omega), Int.toNat_ofNat]
  obtain ⟨p, hp⟩ : ∃ p, players.get? (q * 10) = some p := by
    rw [List.get?_eq_get hlt]; exact ⟨_, rfl⟩
  refine ⟨q, ?_⟩
  unfold paginatedEmbed
  simp only [hstart]
  rw [← hqe] at hend
  simp only [hstart] at hend
  rw [hend, hslice]
  simp only [himg, hp, Option.map_some']
  exact ⟨_, hqe.symm, hlt, rfl, rfl, by rw [hqe], rfl, by rw [hqe], by rw [hqe], by rw [hqe],
    by rw [hqe]⟩

/-! ## The sort -/

theorem sortSlice_of_short (lib : SliceSort) (players : List Player) (h : players.length ≤ 12) :
    sortSlice lib players = players.insertionSort (fun a b => b.Playtime ≤ a.Playtime) :=
  if_pos h

/-- After `sortSlice` no entry precedes one with a larger playtime. -/
theorem sortSlice_sorted (lib : SliceSort) (players : List Player) :
    List.Sorted (fun a b => b.Playtime ≤ a.Playtime) (sortSlice lib players) := by
  unfold sortSlice
  split_ifs
  · exact List.sorted_insertionSort _ players
  · exact lib.sorted players

theorem sortSlice_perm (lib : SliceSort) (players : List Player) :
    (sortSlice lib players).Perm players := by
  unfold sortSlice
  split_ifs
  · exact List.perm_insertionSort _ players
  · exact lib.perm players

theorem sortSlice_length (lib : SliceSort) (players : List Player) :
    (sortSlice lib players).length = players.length :=
  (sortSlice_perm lib players).length_eq

theorem sortSlice_ne_nil (lib : SliceSort) (players : List Player) (h : players ≠ []) :
    sortSlice lib players ≠ [] := by
  intro hs
  have := sortSlice_length lib players
  rw [hs] at this
  exact h (List.length_eq_zero.mp this.symm)

theorem totalPages_sortSlice (lib : SliceSort) (players : List Player) :
    totalPages (sortSlice lib players) = totalPages players := by
  unfold totalPages
  rw [sortSlice_length]

/-! ## Claims about the page renderer -/

/-- C1 (the code at the input where the claim fails): for the empty entry list the page
computation yields `totalPages = 0`, not `1`, and a requested page index `0` is clamped to
`-1`, which is not in the range `0 ≤ p' < totalPages`; a negative request is clamped to `0`,
not below `totalPages` either. -/
theorem C1_empty_list_page_computation :
    totalPages [] = 0 ∧ clampPage (totalPages []) 0 = -1
      ∧ clampPage (totalPages []) (-1) = 0 ∧ ¬ (clampPage (totalPages []) (-1) < totalPages []) := by
  decide

/-- C5: for a non-empty entry list of length `c` and any requested page index, both
`sendPaginatedEmbed` and `editPaginatedEmbed` emit one message, whose description is the
rendering, in list order, of the entries at positions `10 q .. min (c, 10 q + 10)`, where `q`
is the requested index clamped to `[0, ceil (c / 10) - 1]`. -/
theorem C5_page_slice (title thumb : Str) (players : List Player) (pfx : Str) (page : Int)
    (h : players ≠ []) :
    ∃ (q : Nat) (m : Message),
      (q : Int) = (if page < 0 then 0
          else if page ≥ ((players.length : Int) + 9) / 10 then ((players.length : Int) + 9) / 10 - 1
          else page)
      ∧ sendPaginatedEmbed title thumb players pfx page = [.channelMessageSendComplex m]
      ∧ editPaginatedEmbed title thumb players pfx page = [.interactionRespond m]
      ∧ m.Description
          = ((players.take (min players.length (q * 10 + 10))).drop (q * 10)).flatMap entryLine := by
  obtain ⟨q, m, hq, -, hm, hd, -⟩ := paginatedEmbed_of_ne_nil title thumb players pfx page h
  refine ⟨q, m, ?_, ?_, ?_, hd⟩
  · rw [hq, ← totalPages_eq]; rfl
  · simp [sendPaginatedEmbed, hm]
  · simp [editPaginatedEmbed, hm]

/-- C6: for a non-empty entry list and any requested page index, in the message emitted by
`sendPaginatedEmbed` and `editPaginatedEmbed` the Previous button is disabled exactly when
the clamped page index `q` is `0`, and the Next button exactly when `q = totalPages - 1`. -/
theorem C6_navigation_flags (title thumb : Str) (players : List Player) (pfx : Str)
    (page : Int) (h : players ≠ []) :
    ∃ (q : Int) (m : Message),
      q = (if page < 0 then 0
          else if page ≥ ((players.length : Int) + 9) / 10 then ((players.length : Int) + 9) / 10 - 1
          else page)
      ∧ sendPaginatedEmbed title thumb players pfx page = [.channelMessageSendComplex m]
      ∧ editPaginatedEmbed title thumb players pfx page = [.interactionRespond m]
      ∧ (m.Previous.Disabled = true ↔ q = 0)
      ∧ (m.Next.Disabled = true ↔ q = ((players.length : Int) + 9) / 10 - 1) := by
  obtain ⟨q, m, hq, -, hm, -, -, -, -, -, hprev, hnext⟩ :=
    paginatedEmbed_of_ne_nil title thumb players pfx page h
  have hT := totalPages_eq players
  have hpos := totalPages_pos players h
  have hr := clampPage_range (totalPages players) page hpos
  refine ⟨q, m, ?_, ?_, ?_, ?_, ?_⟩
  · rw [hq, ← hT]; rfl
  · simp [sendPaginatedEmbed, hm]
  · simp [editPaginatedEmbed, hm]
  · rw [hprev]; simp
  · rw [hnext, ← hT]
    simp only [decide_eq_true_eq]
    omega

/-- C10 (the code at the input where the claim fails): for the empty entry list and the
requested page index `0` the slice bounds are `start = -10` and `end = 0`, the slice
expression panics in both renderers, and `handleGames` reaches that panic when the looked-up
account has no games. -/
theorem C10_empty_list_panics (lib : SliceSort) (title thumb pfx : Str) :
    clampPage (totalPages []) 0 * pageSize = -10
      ∧ pageEnd [] (clampPage (totalPages []) 0 * pageSize) = 0
      ∧ sendPaginatedEmbed title thumb [] pfx 0 = [.panic]
      ∧ editPaginatedEmbed title thumb [] pfx 0 = [.panic]
      ∧ handleGames lib
          (fun _ => .response ⟨200, [], ⟨[], thumb, []⟩, none, ⟨[], [], []⟩, none⟩) [title]
          = [.httpGet (apiURL ++ "/user/".toList ++ title), .panic] := by
  have hrun : handleGames lib
      (fun _ => .response ⟨200, [], ⟨[], thumb, []⟩, none, ⟨[], [], []⟩, none⟩) [title]
      = [.httpGet (apiURL ++ "/user/".toList ++ title)]
        ++ sendPaginatedEmbed title thumb (sortSlice lib []) "games".toList 0 := rfl
  have hs : sortSlice lib [] = [] := rfl
  refine ⟨by decide, by decide, ?_, ?_, ?_⟩
  · rfl
  · rfl
  · rw [hrun, hs]; rfl

/-- Witness for C5: 25 entries, requested page 2. -/
theorem C5_page_slice_witness :
    sample25 ≠ [] ∧
    ∃ (q : Nat) (m : Message),
      (q : Int) = (if (2 : Int) < 0 then 0
          else if (2 : Int) ≥ ((sample25.length : Int) + 9) / 10
            then ((sample25.length : Int) + 9) / 10 - 1
          else 2)
      ∧ sendPaginatedEmbed "bob".toList [] sample25 "games".toList 2
          = [.channelMessageSendComplex m]
      ∧ editPaginatedEmbed "bob".toList [] sample25 "games".toList 2 = [.interactionRespond m]
      ∧ m.Description
          = ((sample25.take (min sample25.length (q * 10 + 10))).drop (q * 10)).flatMap entryLine :=
  ⟨by decide, C5_page_slice "bob".toList [] sample25 "games".toList 2 (by decide)⟩

/-- Witness for C6: 25 entries, requested page 0. -/
theorem C6_navigation_flags_witness :
    sample25 ≠ [] ∧
    ∃ (q : Int) (m : Message),
      q = (if (0 : Int) < 0 then 0
          else if (0 : Int) ≥ ((sample25.length : Int) + 9) / 10
            then ((sample25.length : Int) + 9) / 10 - 1
          else 0)
      ∧ sendPaginatedEmbed "bob".toList [] sample25 "games".toList 0
          = [.channelMessageSendComplex m]
      ∧ editPaginatedEmbed "bob".toList [] sample25 "games".toList 0 = [.interactionRespond m]
      ∧ (m.Previous.Disabled = true ↔ q = 0)
      ∧ (m.Next.Disabled = true ↔ q = ((sample25.length : Int) + 9) / 10 - 1) :=
  ⟨by decide, C6_navigation_flags "bob".toList [] sample25 "games".toList 0 (by decide)⟩

/-! ## Claims about the navigation identifier -/

/-- C2: for a kind in {games, search}, a direction in {prev, next}, a key without the bar and
a page index in the range of `int`, the identifier the renderers build is
`<kind>|<direction>|<key>|<page>`, and decoding it as `interactionCreate` does gives back
exactly (kind, direction, key, page). -/
theorem C2_identifier_round_trip (kind direction key : Str) (page : Int)
    (hkind : kind = "games".toList ∨ kind = "search".toList)
    (hdir : direction = "prev".toList ∨ direction = "next".toList)
    (hkey : '|' ∉ key) (hlo : -(2 ^ 63) ≤ page) (hhi : page < 2 ^ 63) :
    customID kind direction key page
        = kind ++ "|".toList ++ direction ++ "|".toList ++ key ++ "|".toList ++ formatInt page
      ∧ decodeCustomID (customID kind direction key page) = some (kind, direction, key, page) := by
  have hk : '|' ∉ kind := by rcases hkind with rfl | rfl <;> decide
  have hd : '|' ∉ direction := by rcases hdir with rfl | rfl <;> decide
  constructor
  · simp [customID, stripBar_of_not_mem key hkey]
  · rw [decodeCustomID_customID kind direction key page hk hd hlo hhi,
      stripBar_of_not_mem key hkey]

/-- Witness for C2: the identifier `search|next|portal|2`. -/
theorem C2_identifier_round_trip_witness :
    customID "search".toList "next".toList "portal".toList 2
        = "search".toList ++ "|".toList ++ "next".toList ++ "|".toList ++ "portal".toList
            ++ "|".toList ++ formatInt 2
      ∧ decodeCustomID (customID "search".toList "next".toList "portal".toList 2)
        = some ("search".toList, "next".toList, "portal".toList, 2) :=
  C2_identifier_round_trip "search".toList "next".toList "portal".toList 2 (Or.inr rfl)
    (Or.inr rfl) (by decide) (by decide) (by decide)

/-! ## Claims about the handlers -/

/-- C3 (the code at the input where the claim fails): when the backend lists `ann` (playtime
1) before `bea` (playtime 2), `handleSearch` hands the renderer that list as received, which
is not sorted by non-increasing playtime, and the message shows `ann` first; a navigation
press on the same backend answer sorts and shows `bea` first. -/
theorem C3_initial_search_not_sorted (lib : SliceSort) :
    handleSearch (sampleBackend ⟨[], [], []⟩ sampleAscending) ["portal".toList]
        = .httpGet (apiURL ++ "/search?game=portal".toList)
          :: sendPaginatedEmbed "portal".toList "icon".toList sampleAscending.Users
              "search".toList 0
      ∧ ¬ List.Sorted (fun a b => b.Playtime ≤ a.Playtime) sampleAscending.Users
      ∧ (∃ m, sendPaginatedEmbed "portal".toList "icon".toList sampleAscending.Users
              "search".toList 0 = [.channelMessageSendComplex m]
          ∧ m.Description = "[**ann**](pa) — 1 hour\n[**bea**](pb) — 2 hours\n".toList)
      ∧ (∃ m, interactionCreate lib (sampleBackend ⟨[], [], []⟩ sampleAscending)
              ⟨.messageComponent, "search|prev|portal|0".toList⟩
            = [.httpGet (apiURL ++ "/search?game=portal".toList), .interactionRespond m]
          ∧ m.Description = "[**bea**](pb) — 2 hours\n[**ann**](pa) — 1 hour\n".toList) := by
  have hs : sortSlice lib sampleAscending.Users
      = [⟨"bea".toList, "pb".toList, 2, []⟩, ⟨"ann".toList, "pa".toList, 1, []⟩] := by
    rw [sortSlice_of_short lib _ (by decide)]; decide
  have hrun : interactionCreate lib (sampleBackend ⟨[], [], []⟩ sampleAscending)
      ⟨.messageComponent, "search|prev|portal|0".toList⟩
      = .httpGet (apiURL ++ "/search?game=portal".toList)
        :: editPaginatedEmbed "portal".toList "icon".toList (sortSlice lib sampleAscending.Users)
            "search".toList (-1) := rfl
  refine ⟨by decide, by decide, ⟨_, rfl, by decide⟩, ?_⟩
  rw [hrun, hs]
  exact ⟨_, rfl, by decide⟩

/-- C4, counterexample: a search entry received with `playtime` 59 is rendered with the
label "59 hours", not "Less than one hour". -/
theorem C4_search_label_counterexample :
    ∃ m, handleSearch (sampleBackend ⟨[], [], []⟩ sample59) ["portal".toList]
          = [.httpGet (apiURL ++ "/search?game=portal".toList), .channelMessageSendComplex m]
      ∧ m.Description = "[**ann**](pa) — 59 hours\n".toList
      ∧ sample59.Users.map playtimeMsg = ["59 hours".toList]
      ∧ sample59.Users.map playtimeMsg ≠ ["Less than one hour".toList] :=
  ⟨_, rfl, by decide, by decide, by decide⟩

/-- C4, amended: an entry of a user lookup received with `playtime_forever = m ≥ 0` minutes
gets `Playtime = floor (m / 60)` and the label "Less than one hour", "1 hour" or "<h> hours"
for `h = floor (m / 60)` equal to 0, equal to 1, larger than 1 (59, 60, 61 and 125 minutes
give "Less than one hour", "1 hour", "1 hour", "2 hours"); for any entry, so for one of a
search, whose `Playtime` is the number received, the label is chosen by that number `h` itself:
"1 hour" for 1, "<h> hours" above 1, "Less than one hour" otherwise. -/
theorem C4_duration_label (name storeURL : Str) (g : Game) (m : Int) (p : Player)
    (hm : g.playtime_forever = some m) (hs : g.store_url = some storeURL) (h0 : 0 ≤ m) :
    (∃ q, gamePlayer name g = some q ∧ q.Username = name ∧ q.Playtime = m / 60
        ∧ playtimeMsg q =
            (if m / 60 = 0 then "Less than one hour".toList
             else if m / 60 = 1 then "1 hour".toList
             else formatInt (m / 60) ++ " hours".toList))
      ∧ (∀ header, (gamePlayer name ⟨some 59, some storeURL, header⟩).map playtimeMsg
            = some "Less than one hour".toList
          ∧ (gamePlayer name ⟨some 60, some storeURL, header⟩).map playtimeMsg
            = some "1 hour".toList
          ∧ (gamePlayer name ⟨some 61, some storeURL, header⟩).map playtimeMsg
            = some "1 hour".toList
          ∧ (gamePlayer name ⟨some 125, some storeURL, header⟩).map playtimeMsg
            = some "2 hours".toList)
      ∧ ((p.Playtime ≤ 0 → playtimeMsg p = "Less than one hour".toList)
          ∧ (p.Playtime = 1 → playtimeMsg p = "1 hour".toList)
          ∧ (1 < p.Playtime → playtimeMsg p = formatInt p.Playtime ++ " hours".toList)) := by
  have hdiv : Int.tdiv m 60 = m / 60 := Int.tdiv_eq_ediv h0 (by omega)
  refine ⟨?_, ?_, ?_, ?_, ?_⟩
  rotate_left 2
  · intro h; unfold playtimeMsg; rw [if_neg (by omega), if_neg (by omega)]
  · intro h; unfold playtimeMsg; rw [if_pos h]
  · intro h; unfold playtimeMsg; rw [if_neg (by omega), if_pos (by omega)]
  · refine ⟨⟨name, storeURL, Int.tdiv m 60, match g.header_url with
        | some v => v
        | none => []⟩, by simp only [gamePlayer, hm, hs], rfl, hdiv, ?_⟩
    simp only [playtimeMsg, hdiv]
    have hnn : 0 ≤ m / 60 := Int.ediv_nonneg h0 (by omega)
    by_cases h1 : m / 60 = 1
    · simp [h1]
    · by_cases h2 : m / 60 = 0
      · simp [h2]
      · have h3 : m / 60 > 1 := by omega
        simp [h1, h2, h3]
  · intro header
    refine ⟨?_, ?_, ?_, ?_⟩ <;> rfl

/-- Witness for C4: a game played 125 minutes, and a search entry with playtime 59. -/
theorem C4_duration_label_witness :
    (0 : Int) ≤ 125 ∧
    ((∃ q, gamePlayer "portal".toList ⟨some 125, some "store".toList, none⟩ = some q
        ∧ q.Username = "portal".toList ∧ q.Playtime = 125 / 60
        ∧ playtimeMsg q =
            (if (125 : Int) / 60 = 0 then "Less than one hour".toList
             else if (125 : Int) / 60 = 1 then "1 hour".toList
             else formatInt (125 / 60) ++ " hours".toList))
      ∧ (∀ header, (gamePlayer "portal".toList ⟨some 59, some "store".toList, header⟩).map
              playtimeMsg = some "Less than one hour".toList
          ∧ (gamePlayer "portal".toList ⟨some 60, some "store".toList, header⟩).map playtimeMsg
            = some "1 hour".toList
          ∧ (gamePlayer "portal".toList ⟨some 61, some "store".toList, header⟩).map playtimeMsg
            = some "1 hour".toList
          ∧ (gamePlayer "portal".toList ⟨some 125, some "store".toList, header⟩).map playtimeMsg
            = some "2 hours".toList)
      ∧ (((59 : Int) ≤ 0 →
            playtimeMsg ⟨"ann".toList, "pa".toList, 59, []⟩ = "Less than one hour".toList)
          ∧ ((59 : Int) = 1 → playtimeMsg ⟨"ann".toList, "pa".toList, 59, []⟩ = "1 hour".toList)
          ∧ ((1 : Int) < 59 → playtimeMsg ⟨"ann".toList, "pa".toList, 59, []⟩
              = formatInt 59 ++ " hours".toList))) :=
  ⟨by decide,
    C4_duration_label "portal".toList "store".toList ⟨some 125, some "store".toList, none⟩ 125
      ⟨"ann".toList, "pa".toList, 59, []⟩ rfl rfl (by decide)⟩

theorem editPaginatedEmbed_cases (title thumb : Str) (players : List Player) (pfx : Str)
    (page : Int) :
    (∃ m, editPaginatedEmbed title thumb players pfx page = [.interactionRespond m])
      ∨ editPaginatedEmbed title thumb players pfx page = [.panic] := by
  unfold editPaginatedEmbed
  cases paginatedEmbed title thumb players pfx page with
  | none => right; rfl
  | some m => left; exact ⟨m, rfl⟩

/-- The three ways the `switch` of `interactionCreate` can go: a request is sent; or the kind
is `games` or `search` and `http.Get` rejects the URL, which is only logged; or the kind is
another one and nothing is fetched. -/
theorem interactionFetch_cases (get : Backend) (pfx title : Str) :
    (∃ url rest r, interactionFetch get pfx title = (.httpGet url :: rest, r))
      ∨ (∃ err line, ((pfx = "games".toList
              ∧ get (apiURL ++ "/user/".toList ++ title) = .rejected err)
            ∨ (pfx = "search".toList
              ∧ get (apiURL ++ "/search?game=".toList ++ title) = .rejected err))
          ∧ interactionFetch get pfx title = ([.println line], none))
      ∨ (pfx ≠ "games".toList ∧ pfx ≠ "search".toList
          ∧ interactionFetch get pfx title = ([], some ([], []))) := by
  unfold interactionFetch Get
  split_ifs with h1 h2
  · cases hg : get (apiURL ++ "/user/".toList ++ title) with
    | rejected err => right; left; exact ⟨err, _, Or.inl ⟨h1, rfl⟩, rfl⟩
    | failed err => left; exact ⟨_, _, _, rfl⟩
    | response resp =>
      left
      simp only
      split_ifs
      · exact ⟨_, _, _, rfl⟩
      · cases gamesPlayers resp.account.Games <;> exact ⟨_, _, _, rfl⟩
  · cases hg : get (apiURL ++ "/search?game=".toList ++ title) with
    | rejected err => right; left; exact ⟨err, _, Or.inr ⟨h2, rfl⟩, rfl⟩
    | failed err => left; exact ⟨_, _, _, rfl⟩
    | response resp =>
      left
      simp only
      split_ifs <;> exact ⟨_, _, _, rfl⟩
  · right; right; exact ⟨h1, h2, rfl⟩

/-- A kind and key for which `http.Get` rejects the re-fetch URL: the press is only logged. -/
theorem interactionFetch_rejected (get : Backend) (pfx title err : Str)
    (h : (pfx = "games".toList ∧ get (apiURL ++ "/user/".toList ++ title) = .rejected err)
      ∨ (pfx = "search".toList
        ∧ get (apiURL ++ "/search?game=".toList ++ title) = .rejected err)) :
    ∃ line, interactionFetch get pfx title = ([.println line], none) := by
  unfold interactionFetch Get
  rcases h with ⟨hp, hg⟩ | ⟨hp, hg⟩
  · rw [if_pos hp, hg]; exact ⟨_, rfl⟩
  · have hne : pfx ≠ "games".toList := by rw [hp]; decide
    rw [if_neg hne, if_pos hp, hg]; exact ⟨_, rfl⟩

/-- C9, counterexample: the identifier `games|next|%zz|0` has four fields, and when
`http.Get` rejects the URL built from its key the handler only logs the fetch error: no
backend request, no message edit, no panic.  So "dropped if and only if fewer than four
fields" fails there. -/
theorem C9_malformed_identifier_counterexample :
    (stringsSplit "games|next|%zz|0".toList).length = 4
      ∧ interactionCreate sampleSort sampleRejecting
          ⟨.messageComponent, "games|next|%zz|0".toList⟩
        = [.println "Error fetching user for pagination".toList]
      ∧ ¬ (((∀ url, Effect.httpGet url ∉ interactionCreate sampleSort sampleRejecting
                ⟨.messageComponent, "games|next|%zz|0".toList⟩)
            ∧ (∀ m, Effect.interactionRespond m ∉ interactionCreate sampleSort sampleRejecting
                ⟨.messageComponent, "games|next|%zz|0".toList⟩)
            ∧ Effect.panic ∉ interactionCreate sampleSort sampleRejecting
                ⟨.messageComponent, "games|next|%zz|0".toList⟩)
          ↔ (stringsSplit "games|next|%zz|0".toList).length < 4) := by
  have hrun : interactionCreate sampleSort sampleRejecting
      ⟨.messageComponent, "games|next|%zz|0".toList⟩
      = [.println "Error fetching user for pagination".toList] := by decide
  refine ⟨by decide, hrun, ?_⟩
  rw [hrun]
  intro h
  have hlt := h.mp ⟨by simp, by simp, by simp⟩
  revert hlt
  decide

/-- C9, amended: `interactionCreate` drops a component press (no backend request, no message
edit, no panic) if and only if splitting the identifier on the bar gives fewer than four
fields, or the identifier decodes to the kind `games` or `search` and `http.Get` returns an
error for the URL built from the key without sending a request.  With fewer than four fields
the handler only logs the identifier; an identifier with at least four fields is decoded into
kind, direction and key from its first three fields and the page from `Atoi` of the fourth. -/
theorem C9_malformed_identifier (lib : SliceSort) (get : Backend) (id : Str) :
    (((∀ url, Effect.httpGet url ∉ interactionCreate lib get ⟨.messageComponent, id⟩)
        ∧ (∀ m, Effect.interactionRespond m ∉ interactionCreate lib get ⟨.messageComponent, id⟩)
        ∧ Effect.panic ∉ interactionCreate lib get ⟨.messageComponent, id⟩)
      ↔ ((stringsSplit id).length < 4
          ∨ ∃ pfx action title page err, decodeCustomID id = some (pfx, action, title, page)
              ∧ ((pfx = "games".toList
                  ∧ get (apiURL ++ "/user/".toList ++ title) = .rejected err)
                ∨ (pfx = "search".toList
                  ∧ get (apiURL ++ "/search?game=".toList ++ title) = .rejected err))))
    ∧ ((stringsSplit id).length < 4 →
        interactionCreate lib get ⟨.messageComponent, id⟩
          = [.println ("Malformed customID: ".toList ++ id)])
    ∧ (∀ a b c d rest, stringsSplit id = a :: b :: c :: d :: rest →
        decodeCustomID id = some (a, b, c, (Atoi d).1)) := by
  have hshort : (stringsSplit id).length < 4 → decodeCustomID id = none := by
    intro hl
    unfold decodeCustomID
    match hs : stringsSplit id, hl with
    | [], _ => rfl
    | [_], _ => rfl
    | [_, _], _ => rfl
    | [_, _, _], _ => rfl
    | _ :: _ :: _ :: _ :: _, hl => simp at hl; omega
  have hdrop : (stringsSplit id).length < 4 →
      interactionCreate lib get ⟨.messageComponent, id⟩
        = [.println ("Malformed customID: ".toList ++ id)] := by
    intro hl
    unfold interactionCreate
    simp only [ne_eq, not_true_eq_false, if_false, hshort hl]
  have hlong : ∀ a b c d rest, stringsSplit id = a :: b :: c :: d :: rest →
      decodeCustomID id = some (a, b, c, (Atoi d).1) := by
    intro a b c d rest hs
    unfold decodeCustomID
    rw [hs]
  have hdec : ¬ (stringsSplit id).length < 4 → ∃ d, decodeCustomID id = some d := by
    intro hl
    match hs : stringsSplit id with
    | [] => rw [hs] at hl; simp at hl
    | [_] => rw [hs] at hl; simp at hl
    | [_, _] => rw [hs] at hl; simp at hl
    | [_, _, _] => rw [hs] at hl; simp at hl
    | a :: b :: c :: d :: rest => exact ⟨_, hlong a b c d rest hs⟩
  refine ⟨⟨?_, ?_⟩, hdrop, hlong⟩
  · rintro ⟨hget, hedit, hpanic⟩
    by_cases hl : (stringsSplit id).length < 4
    · exact Or.inl hl
    · right
      obtain ⟨⟨pfx, action, title, page⟩, hd⟩ := hdec hl
      have hrun : interactionCreate lib get ⟨.messageComponent, id⟩
          = match interactionFetch get pfx title with
            | (effects, none) => effects
            | (effects, some (players, thumb)) =>
              effects ++ interactionRender lib title thumb players pfx action page := by
        unfold interactionCreate
        simp only [ne_eq, not_true_eq_false, if_false, hd]
      rcases interactionFetch_cases get pfx title with ⟨url, rest, r, hf⟩ | ⟨err, line, hrej, -⟩
        | ⟨-, -, hf⟩
      · exfalso
        apply hget url
        rw [hrun, hf]
        cases r <;> simp
      · exact ⟨pfx, action, title, page, err, hd, hrej⟩
      · exfalso
        rw [hrun, hf] at hedit hpanic
        simp only [List.nil_append] at hedit hpanic
        unfold interactionRender at hedit hpanic
        rcases editPaginatedEmbed_cases title [] (sortSlice lib []) pfx
          (if action = "next".toList then wrapInt64 (page + 1)
            else if action = "prev".toList then wrapInt64 (page - 1) else page) with ⟨m, hm⟩ | hp
        · exact hedit m (by rw [hm]; simp)
        · exact hpanic (by rw [hp]; simp)
  · rintro (hl | ⟨pfx, action, title, page, err, hd, hrej⟩)
    · rw [hdrop hl]
      simp
    · obtain ⟨line, hf⟩ := interactionFetch_rejected get pfx title err hrej
      have hrun : interactionCreate lib get ⟨.messageComponent, id⟩ = [.println line] := by
        unfold interactionCreate
        simp only [ne_eq, not_true_eq_false, if_false, hd, hf]
      rw [hrun]
      simp

/-- Witness for C9: the identifier `games|next|bob` has three fields and is dropped; the
identifier `games|next|bob|3|x` has five fields and is decoded from its first four; the
identifier `games|next|%zz|0` is dropped because `http.Get` rejects its URL. -/
theorem C9_malformed_identifier_witness :
    (stringsSplit "games|next|bob".toList).length < 4
      ∧ interactionCreate sampleSort (sampleBackend sampleAccount sample59)
          ⟨.messageComponent, "games|next|bob".toList⟩
        = [.println ("Malformed customID: ".toList ++ "games|next|bob".toList)]
      ∧ stringsSplit "games|next|bob|3|x".toList
        = "games".toList :: "next".toList :: "bob".toList :: "3".toList :: ["x".toList]
      ∧ decodeCustomID "games|next|bob|3|x".toList
        = some ("games".toList, "next".toList, "bob".toList, (Atoi "3".toList).1)
      ∧ decodeCustomID "games|next|%zz|0".toList
        = some ("games".toList, "next".toList, "%zz".toList, 0)
      ∧ sampleRejecting (apiURL ++ "/user/".toList ++ "%zz".toList)
        = .rejected "invalid URL escape".toList
      ∧ ((∀ url, Effect.httpGet url ∉ interactionCreate sampleSort sampleRejecting
              ⟨.messageComponent, "games|next|%zz|0".toList⟩)
          ∧ (∀ m, Effect.interactionRespond m ∉ interactionCreate sampleSort sampleRejecting
              ⟨.messageComponent, "games|next|%zz|0".toList⟩)
          ∧ Effect.panic ∉ interactionCreate sampleSort sampleRejecting
              ⟨.messageComponent, "games|next|%zz|0".toList⟩) :=
  ⟨by decide,
    (C9_malformed_identifier sampleSort (sampleBackend sampleAccount sample59)
      "games|next|bob".toList).2.1 (by decide),
    by decide,
    (C9_malformed_identifier sampleSort (sampleBackend sampleAccount sample59)
      "games|next|bob|3|x".toList).2.2 "games".toList "next".toList "bob".toList "3".toList
      ["x".toList] (by decide),
    by decide, by decide,
    (C9_malformed_identifier sampleSort sampleRejecting "games|next|%zz|0".toList).1.mpr
      (Or.inr ⟨"games".toList, "next".toList, "%zz".toList, 0, "invalid URL escape".toList,
        by decide, Or.inl ⟨rfl, by decide⟩⟩)⟩

/-! ## Navigation steps -/

theorem wrapInt64_of_range (x : Int) (hlo : -(2 ^ 63) ≤ x) (hhi : x < 2 ^ 63) :
    wrapInt64 x = x := by
  unfold wrapInt64
  omega

theorem clampPage_idem (total page : Int) (h : 1 ≤ total) :
    clampPage total (clampPage total page) = clampPage total page := by
  have := clampPage_range total page h
  exact clampPage_of_range _ _ this.1 this.2

/-- The renderer depends on the requested page index only through its clamped value. -/
theorem paginatedEmbed_clampPage (title thumb : Str) (players : List Player) (pfx : Str)
    (page : Int) (h : players ≠ []) :
    paginatedEmbed title thumb players pfx (clampPage (totalPages players) page)
      = paginatedEmbed title thumb players pfx page := by
  unfold paginatedEmbed
  simp only [clampPage_idem _ _ (totalPages_pos players h)]

/-- One press, from an identifier carrying page `p` within the pages of the re-fetched
list. -/
theorem interactionCreate_step (lib : SliceSort) (get : Backend) (pfx key thumb : Str) (effects : List Effect)
    (players : List Player) (hpfx : '|' ∉ pfx) (hkey : '|' ∉ key)
    (hfetch : interactionFetch get pfx key = (effects, some (players, thumb)))
    (hne : players ≠ []) (hlen : players.length < 2 ^ 63)
    (p : Int) (h0 : 0 ≤ p) (h1 : p < totalPages players) (next : Bool) :
    ∃ m, interactionCreate lib get ⟨.messageComponent, customID pfx (actionOf next) key p⟩
          = effects ++ [.interactionRespond m]
      ∧ paginatedEmbed key thumb (sortSlice lib players) pfx (nextPage (totalPages players) p next)
          = some m
      ∧ m.Previous.CustomID
          = customID pfx "prev".toList key (nextPage (totalPages players) p next)
      ∧ m.Next.CustomID = customID pfx "next".toList key (nextPage (totalPages players) p next)
      ∧ pageOf m = some (nextPage (totalPages players) p next) := by
  have hT := totalPages_eq players
  have hsne := sortSlice_ne_nil lib players hne
  have hTs := totalPages_sortSlice lib players
  have hact : '|' ∉ actionOf next := by cases next <;> decide
  have hdec := decodeCustomID_customID pfx (actionOf next) key p hpfx hact (by omega) (by omega)
  rw [stripBar_of_not_mem key hkey] at hdec
  -- the page counter after the direction is applied
  have hpage : (if actionOf next = "next".toList then wrapInt64 (p + 1)
      else if actionOf next = "prev".toList then wrapInt64 (p - 1) else p)
      = if next then p + 1 else p - 1 := by
    cases next
    · have : actionOf false ≠ "next".toList := by decide
      have h2 : actionOf false = "prev".toList := by decide
      simp only [this, h2, if_false, if_true, Bool.false_eq_true]
      exact wrapInt64_of_range _ (by omega) (by omega)
    · have h2 : actionOf true = "next".toList := by decide
      simp only [h2, if_true]
      exact wrapInt64_of_range _ (by omega) (by omega)
  have hclamp : clampPage (totalPages (sortSlice lib players)) (if next then p + 1 else p - 1)
      = nextPage (totalPages players) p next := by
    rw [hTs]
    unfold clampPage nextPage
    cases next
    · simp only [Bool.false_eq_true, if_false]
      split_ifs <;> omega
    · simp only [if_true]
      split_ifs <;> omega
  obtain ⟨q, m, hq, -, hm, -, -, -, hprev, hnext, -⟩ :=
    paginatedEmbed_of_ne_nil key thumb (sortSlice lib players) pfx (if next then p + 1 else p - 1) hsne
  rw [hclamp] at hq
  have hqr : 0 ≤ nextPage (totalPages players) p next
      ∧ nextPage (totalPages players) p next < totalPages players := by
    rw [← hclamp, hTs]
    exact clampPage_range _ _ (by omega)
  refine ⟨m, ?_, ?_, ?_, ?_, ?_⟩
  · unfold interactionCreate
    simp only [ne_eq, not_true_eq_false, if_false, hdec, hfetch]
    unfold interactionRender editPaginatedEmbed
    simp only [hpage, hm]
  · rw [← hclamp, paginatedEmbed_clampPage _ _ _ _ _ hsne, hm]
  · rw [hprev, hq]
  · rw [hnext, hq]
  · have hd1 := decodeCustomID_customID pfx "prev".toList key
      (nextPage (totalPages players) p next) hpfx (by decide) (by omega) (by omega)
    have hd2 := decodeCustomID_customID pfx "next".toList key
      (nextPage (totalPages players) p next) hpfx (by decide) (by omega) (by omega)
    unfold pageOf
    rw [hprev, hnext, hq, hd1, hd2]
    simp

/-- Any sequence of presses, started from a message whose identifiers carry a page within
the pages of the re-fetched list, ends on such a message. -/
theorem pressAll_range (lib : SliceSort) (get : Backend) (pfx key thumb : Str) (effects : List Effect)
    (players : List Player) (hpfx : '|' ∉ pfx) (hkey : '|' ∉ key)
    (hfetch : interactionFetch get pfx key = (effects, some (players, thumb)))
    (hne : players ≠ []) (hlen : players.length < 2 ^ 63) :
    ∀ (presses : List Bool) (m0 : Message) (q0 : Int), 0 ≤ q0 → q0 < totalPages players →
      m0.Previous.CustomID = customID pfx "prev".toList key q0 →
      m0.Next.CustomID = customID pfx "next".toList key q0 →
      ∃ m q, pressAll lib get m0 presses = some m ∧ pageOf m = some q ∧ 0 ≤ q
        ∧ q < totalPages players := by
  have hT := totalPages_eq players
  intro presses
  induction presses with
  | nil =>
    intro m0 q0 h0 h1 hprev hnext
    refine ⟨m0, q0, rfl, ?_, h0, h1⟩
    have hd1 := decodeCustomID_customID pfx "prev".toList key q0 hpfx (by decide) (by omega)
      (by omega)
    have hd2 := decodeCustomID_customID pfx "next".toList key q0 hpfx (by decide) (by omega)
      (by omega)
    unfold pageOf
    rw [hprev, hnext, hd1, hd2]
    simp
  | cons b rest ih =>
    intro m0 q0 h0 h1 hprev hnext
    obtain ⟨m, hrun, hm, hp, hn, -⟩ :=
      interactionCreate_step lib get pfx key thumb effects players hpfx hkey hfetch hne hlen q0 h0 h1 b
    have hid : (if b then m0.Next.CustomID else m0.Previous.CustomID)
        = customID pfx (actionOf b) key q0 := by
      cases b
      · simpa [actionOf] using hprev
      · simpa [actionOf] using hnext
    have hpress : press lib get m0 b = some m := by
      unfold press
      rw [hid, hrun]
      simp
    have hr : 0 ≤ nextPage (totalPages players) q0 b
        ∧ nextPage (totalPages players) q0 b < totalPages players := by
      unfold nextPage
      cases b
      · simp only [Bool.false_eq_true, if_false]; omega
      · simp only [if_true]; omega
    obtain ⟨m', q, hall, hq⟩ := ih m _ hr.1 hr.2 hp hn
    exact ⟨m', q, by simp only [pressAll, hpress, hall], hq⟩

/-- C7: when the re-fetch for kind `pfx` and key `key` returns a non-empty list with `T` pages,
a press on an identifier carrying a page index `p` with `0 ≤ p < T` is answered with the
rendering of page `min (p + 1, T - 1)` for Next and of page `max (p - 1, 0)` for Previous, whose
two buttons carry that new page index; hence every sequence of presses started from a message
carrying page 0 ends on a message whose page index is in `[0, T - 1]`. -/
theorem C7_navigation_step (lib : SliceSort) (get : Backend) (pfx key thumb : Str) (effects : List Effect)
    (players : List Player) (hpfx : '|' ∉ pfx) (hkey : '|' ∉ key)
    (hfetch : interactionFetch get pfx key = (effects, some (players, thumb)))
    (hne : players ≠ []) (hlen : players.length < 2 ^ 63) :
    (∀ p : Int, 0 ≤ p → p < ((players.length : Int) + 9) / 10 →
      (∃ m, interactionCreate lib get ⟨.messageComponent, customID pfx "next".toList key p⟩
            = effects ++ [.interactionRespond m]
          ∧ paginatedEmbed key thumb (sortSlice lib players) pfx
              (min (p + 1) (((players.length : Int) + 9) / 10 - 1)) = some m
          ∧ m.Previous.CustomID = customID pfx "prev".toList key
              (min (p + 1) (((players.length : Int) + 9) / 10 - 1))
          ∧ m.Next.CustomID = customID pfx "next".toList key
              (min (p + 1) (((players.length : Int) + 9) / 10 - 1)))
      ∧ (∃ m, interactionCreate lib get ⟨.messageComponent, customID pfx "prev".toList key p⟩
            = effects ++ [.interactionRespond m]
          ∧ paginatedEmbed key thumb (sortSlice lib players) pfx (max (p - 1) 0) = some m
          ∧ m.Previous.CustomID = customID pfx "prev".toList key (max (p - 1) 0)
          ∧ m.Next.CustomID = customID pfx "next".toList key (max (p - 1) 0)))
    ∧ (∀ (m0 : Message) (presses : List Bool),
        m0.Previous.CustomID = customID pfx "prev".toList key 0 →
        m0.Next.CustomID = customID pfx "next".toList key 0 →
        ∃ m q, pressAll lib get m0 presses = some m ∧ pageOf m = some q ∧ 0 ≤ q
          ∧ q < ((players.length : Int) + 9) / 10) := by
  have hT := totalPages_eq players
  have hpos := totalPages_pos players hne
  constructor
  · intro p h0 h1
    rw [← hT] at h1 ⊢
    constructor
    · obtain ⟨m, h⟩ := interactionCreate_step lib get pfx key thumb effects players hpfx hkey hfetch
        hne hlen p h0 h1 true
      exact ⟨m, h.1, h.2.1, h.2.2.1, h.2.2.2.1⟩
    · obtain ⟨m, h⟩ := interactionCreate_step lib get pfx key thumb effects players hpfx hkey hfetch
        hne hlen p h0 h1 false
      exact ⟨m, h.1, h.2.1, h.2.2.1, h.2.2.2.1⟩
  · intro m0 presses hprev hnext
    rw [← hT]
    exact pressAll_range lib get pfx key thumb effects players hpfx hkey hfetch hne hlen presses m0 0
      (le_refl 0) (by omega) hprev hnext

/-! ## The re-fetch request -/

/-- C8 (the code at the input where the claim fails): for the command `!search half life`
`handleSearch` requests `apiURL + "/search?game=half+life"`, the URL-encoded query, and the
identifier it renders carries the key `half life`; on a press `interactionCreate` requests
`apiURL + "/search?game=half life"`, the key as it stands, which is a different URL. -/
theorem C8_refetch_url_not_escaped (lib : SliceSort) :
    ∃ m rest,
      handleSearch (sampleBackend ⟨[], [], []⟩ sampleAscending) ["half".toList, "life".toList]
        = [.httpGet (apiURL ++ "/search?game=".toList
              ++ QueryEscape (stringsJoin ["half".toList, "life".toList])),
            .channelMessageSendComplex m]
      ∧ QueryEscape (stringsJoin ["half".toList, "life".toList]) = "half+life".toList
      ∧ m.Next.CustomID = "search|next|half life|0".toList
      ∧ interactionCreate lib (sampleBackend ⟨[], [], []⟩ sampleAscending)
          ⟨.messageComponent, m.Next.CustomID⟩
        = .httpGet (apiURL ++ "/search?game=half life".toList) :: rest
      ∧ apiURL ++ "/search?game=half life".toList
        ≠ apiURL ++ "/search?game=".toList
            ++ QueryEscape (stringsJoin ["half".toList, "life".toList]) :=
  ⟨_, _, rfl, by decide, by decide, rfl, by decide⟩

/-- Witness for C7: the search view of 25 entries (three pages); a Next press on the last
page stays on it, a Previous press on it leads to page 1, and three Next presses from the
initial message lead over pages 1 and 2 to page 2. -/
theorem C7_navigation_step_witness :
    '|' ∉ "search".toList ∧ '|' ∉ "portal".toList
      ∧ interactionFetch (sampleBackend sampleAccount sampleSearch25) "search".toList
          "portal".toList
        = ([.httpGet (apiURL ++ "/search?game=portal".toList)], some (sample25, "icon".toList))
      ∧ sample25 ≠ [] ∧ sample25.length < 2 ^ 63
      ∧ (0 : Int) ≤ 2 ∧ (2 : Int) < ((sample25.length : Int) + 9) / 10
      ∧ sampleStart.Previous.CustomID = customID "search".toList "prev".toList "portal".toList 0
      ∧ sampleStart.Next.CustomID = customID "search".toList "next".toList "portal".toList 0
      ∧ ((∃ m, interactionCreate sampleSort (sampleBackend sampleAccount sampleSearch25)
              ⟨.messageComponent, customID "search".toList "next".toList "portal".toList 2⟩
            = [.httpGet (apiURL ++ "/search?game=portal".toList)] ++ [.interactionRespond m]
          ∧ paginatedEmbed "portal".toList "icon".toList (sortSlice sampleSort sample25) "search".toList
              (min (2 + 1) (((sample25.length : Int) + 9) / 10 - 1)) = some m
          ∧ m.Previous.CustomID = customID "search".toList "prev".toList "portal".toList
              (min (2 + 1) (((sample25.length : Int) + 9) / 10 - 1))
          ∧ m.Next.CustomID = customID "search".toList "next".toList "portal".toList
              (min (2 + 1) (((sample25.length : Int) + 9) / 10 - 1)))
        ∧ (∃ m, interactionCreate sampleSort (sampleBackend sampleAccount sampleSearch25)
              ⟨.messageComponent, customID "search".toList "prev".toList "portal".toList 2⟩
            = [.httpGet (apiURL ++ "/search?game=portal".toList)] ++ [.interactionRespond m]
          ∧ paginatedEmbed "portal".toList "icon".toList (sortSlice sampleSort sample25) "search".toList
              (max (2 - 1) 0) = some m
          ∧ m.Previous.CustomID
              = customID "search".toList "prev".toList "portal".toList (max (2 - 1) 0)
          ∧ m.Next.CustomID
              = customID "search".toList "next".toList "portal".toList (max (2 - 1) 0)))
      ∧ (∃ m q, pressAll sampleSort (sampleBackend sampleAccount sampleSearch25) sampleStart
              [true, true, true] = some m
          ∧ pageOf m = some q ∧ 0 ≤ q ∧ q < ((sample25.length : Int) + 9) / 10)
      ∧ samplePages [] = some 0 ∧ samplePages [true] = some 1
      ∧ samplePages [true, true] = some 2 ∧ samplePages [true, true, true] = some 2 :=
  ⟨by decide, by decide, by decide, by decide, by decide, by decide, by decide, by decide,
    by decide,
    (C7_navigation_step sampleSort (sampleBackend sampleAccount sampleSearch25) "search".toList
      "portal".toList "icon".toList [.httpGet (apiURL ++ "/search?game=portal".toList)] sample25
      (by decide) (by decide) (by decide) (by decide) (by decide)).1 2 (by decide) (by decide),
    (C7_navigation_step sampleSort (sampleBackend sampleAccount sampleSearch25) "search".toList
      "portal".toList "icon".toList [.httpGet (apiURL ++ "/search?game=portal".toList)] sample25
      (by decide) (by decide) (by decide) (by decide) (by decide)).2 sampleStart
      [true, true, true] (by decide) (by decide),
    by decide, by decide, by decide, by decide⟩

end SteamPunk
